import Mathlib

/-!
Verification of the excalidrauri file-tree and canvas document-lifecycle
engines. Definitions are shallow embeddings of the TypeScript source:
`src/types/index.ts`, `src/utils/fileTree.ts`, `src/App.tsx`,
`src/components/ExcalidrawCanvas.tsx` (sidebar tree segment) and the canvas
component with force-save (loadFile / forceSave / handleChange).
-/

namespace Excalidrauri

/-- Tree entry, from `src/types/index.ts` (`FileItem`): a node has a name, a
slash-delimited path, a folder flag, and an optional ordered list of
children (absence and empty list are distinguishable). -/
inductive FileItem : Type where
  | mk (name : String) (path : String) (isFolder : Bool)
       (children : Option (List FileItem))

def FileItem.name : FileItem → String
  | .mk n _ _ _ => n

def FileItem.path : FileItem → String
  | .mk _ p _ _ => p

def FileItem.isFolder : FileItem → Bool
  | .mk _ _ f _ => f

def FileItem.children : FileItem → Option (List FileItem)
  | .mk _ _ _ c => c

mutual

/-- Source `findFileByPath` from `src/utils/fileTree.ts`: scans the list in order;
returns a node whose `path` equals the query, descending into a folder's
children only when the `children` field is present. -/
def findFileByPath : List FileItem → String → Option FileItem
  | [], _ => none
  | item :: rest, path =>
    if item.path = path then some item
    else
      match findInChildren item path with
      | some found => some found
      | none => findFileByPath rest path

/-- The `item.isFolder && item.children` descent of `findFileByPath`. -/
def findInChildren : FileItem → String → Option FileItem
  | .mk _ _ isFolder children, path =>
    if isFolder then
      match children with
      | some cs => findFileByPath cs path
      | none => none
    else none

end

mutual

/-- Depth-first, parents-before-children, siblings-in-order enumeration of
the nodes of a forest, descending into a folder's children only when the
`children` field is present (the traversal order of `findFileByPath`). -/
def dfsForest : List FileItem → List FileItem
  | [] => []
  | item :: rest => (item :: dfsChildren item) ++ dfsForest rest

/-- The strict descendants of a node enumerated depth first: the contents
of a folder's present `children` field, nothing otherwise. -/
def dfsChildren : FileItem → List FileItem
  | .mk _ _ isFolder children =>
    if isFolder then
      match children with
      | some cs => dfsForest cs
      | none => []
    else []

end

/-! ### Display names and substring matching (sidebar search) -/

/-- JS `endsWith`: suffix test, modeled on the character list. -/
def strEndsWith (s suffix : String) : Bool :=
  decide (suffix.data <:+ s.data)

/-- JS `startsWith`: prefix test, modeled on the character list. -/
def strStartsWith (s pre : String) : Bool :=
  decide (pre.data <+: s.data)

/-- JS `slice(0, -n)`: drop the last `n` characters. -/
def strDropRight (s : String) (n : Nat) : String :=
  (s.data.take (s.data.length - n)).asString

/-- JS `toLowerCase`, modeled as the ASCII per-character case map. -/
def strToLower (s : String) : String :=
  (s.data.map Char.toLower).asString

/-- JS `String.prototype.includes`: substring containment. -/
def strIncludes (s pat : String) : Bool :=
  decide (pat.data <:+: s.data)

/-- The display name used throughout the sidebar: the node name with a
trailing `".excalidraw"` suffix stripped when present. -/
def displayNameOf (name : String) : String :=
  if strEndsWith name ".excalidraw" then
    strDropRight name (".excalidraw".length)
  else name

/-- The match test of `filterFileTree`: case-insensitive substring match of
the query against the display name. -/
def filterMatches (name query : String) : Bool :=
  strIncludes (strToLower (displayNameOf name)) (strToLower query)

/-! ### `filterFileTree` from the sidebar (ExcalidrawCanvas.tsx) -/

mutual

/-- The recursive body of `filterFileTree` for a non-empty query. The JS
function re-enters itself as `filterFileTree(item.children || [], query)`;
since the query is non-empty there, the empty-query early return never
fires in recursive calls, so the worker recursion is this function. Each
loop iteration either pushes one (possibly rebuilt) node or skips it,
which `filterItem` captures per item. -/
def filterList : List FileItem → String → List FileItem
  | [], _ => []
  | item :: rest, query =>
    match filterItem item query with
    | some it => it :: filterList rest query
    | none => filterList rest query

/-- One iteration of the `filterFileTree` loop: the node pushed for `item`,
or `none` when the item is dropped. -/
def filterItem : FileItem → String → Option FileItem
  | .mk name path isFolder children, query =>
    if isFolder then
      if filterMatches name query then
        -- `filtered.push({...item, children: item.children || []})`
        some (FileItem.mk name path isFolder (some (children.getD [])))
      else
        let filteredChildren :=
          match children with
          | some cs => filterList cs query
          | none => []
        if filteredChildren.isEmpty then none
        else some (FileItem.mk name path isFolder (some filteredChildren))
    else
      if filterMatches name query then
        some (FileItem.mk name path isFolder children)
      else none

end

/-- Source `filterFileTree(items, query)`: `if (!query) return items;` then the
recursive filtering loop. -/
def filterFileTree (items : List FileItem) (query : String) : List FileItem :=
  if query = "" then items else filterList items query

mutual

/-- Modelled from the spec (reference definition for the refinement claim
about `filter`): "A folder whose own name matches is included wholesale
(all descendants retained unfiltered). A folder whose name does not match
is included only if a recursive filter of its children is non-empty, and
then only with the filtered children. A non-folder node is included iff
its display name matches." The wholesale case keeps the node unchanged. -/
def filterSpecList : List FileItem → String → List FileItem
  | [], _ => []
  | item :: rest, query =>
    match filterSpecItem item query with
    | some it => it :: filterSpecList rest query
    | none => filterSpecList rest query

/-- Modelled from the spec: the per-node inclusion decision of the
reference filter. -/
def filterSpecItem : FileItem → String → Option FileItem
  | .mk name path isFolder children, query =>
    if isFolder then
      if filterMatches name query then
        some (FileItem.mk name path isFolder children)
      else
        let filteredChildren :=
          match children with
          | some cs => filterSpecList cs query
          | none => []
        if filteredChildren.isEmpty then none
        else some (FileItem.mk name path isFolder (some filteredChildren))
    else
      if filterMatches name query then
        some (FileItem.mk name path isFolder children)
      else none

end

/-- Modelled from the spec: "Empty query returns the input unchanged",
otherwise the reference recursive filter. -/
def filterSpec (items : List FileItem) (query : String) : List FileItem :=
  if query = "" then items else filterSpecList items query

/-- A node is either a non-folder or a folder with a present (possibly
empty) `children` field. -/
def childrenPresentAt (n : FileItem) : Bool :=
  !n.isFolder || !n.children.isNone

/-- Every folder node of the forest, at any depth, has a present (possibly
empty) `children` field. -/
def allChildrenPresent (items : List FileItem) : Bool :=
  (dfsForest items).all childrenPresentAt

/-! ### Move operation (TreeNode.handleDrop → handleMove) -/

/-- JS `sourcePath.includes("/") ? sourcePath.substring(lastIndexOf("/")+1)
: sourcePath`: the characters after the last slash (the whole string when
it has no slash). -/
def lastSegment (p : String) : String :=
  ((p.data.reverse.takeWhile fun c => c ≠ '/').reverse).asString

/-- Source `handleMove(sourcePath, targetFolderPath)`: returns the
`renameItem(old, new)` capability call issued, or `none` when the move is
rejected before any capability call. -/
def handleMoveCall (sourcePath targetFolderPath : String) :
    Option (String × String) :=
  let fileName := lastSegment sourcePath
  if strStartsWith sourcePath (targetFolderPath ++ "/") then none
  else
    let newPath := targetFolderPath ++ "/" ++ fileName
    if sourcePath = newPath then none
    else some (sourcePath, newPath)

/-- Source `TreeNode.handleDrop`: drops on non-folders are ignored; then the guard
`sourcePath && sourcePath !== item.path &&
!sourcePath.startsWith(item.path + "/")` gates the call to `onMove`
(= `handleMove`). Returns the rename capability call issued, if any. -/
def handleDropCall (sourcePath : String) (target : FileItem) :
    Option (String × String) :=
  if !target.isFolder then none
  else if sourcePath = "" then none
  else if sourcePath = target.path then none
  else if strStartsWith sourcePath (target.path ++ "/") then none
  else handleMoveCall sourcePath target.path

/-! ### Collision-avoiding copy destination (handlePaste) -/

/-- Source `checkExists` from `handlePaste`: full-tree scan for a path, with the
same descent rule as `findFileByPath`. -/
def pathExistsIn (tree : List FileItem) (path : String) : Bool :=
  (findFileByPath tree path).isSome

/-- The candidate display name tried at loop counter `c` in `handlePaste`:
`"{base} copy"` first, then `"{base} copy {c}"` for `c ≥ 2`. -/
def copyName (base : String) (c : Nat) : String :=
  if c = 1 then base ++ " copy" else base ++ " copy " ++ Nat.repr c

/-- The candidate full path tried at loop counter `c`: the candidate name
with the canvas suffix, under the target folder (or at the root when the
target path is empty). -/
def copyPath (targetPath base : String) (c : Nat) : String :=
  if targetPath = "" then copyName base c ++ ".excalidraw"
  else targetPath ++ "/" ++ copyName base c ++ ".excalidraw"

/-- The `while (checkExists(newPath))` loop of `handlePaste`, made total by
fuel: starting at counter `c`, returns the first counter whose candidate
path is not in the tree (the loop in the source is unbounded; any fuel
larger than the number of colliding candidates reaches the same counter). -/
def findCopyCounter (tree : List FileItem) (targetPath base : String) :
    Nat → Nat → Nat
  | 0, c => c
  | fuel + 1, c =>
    if pathExistsIn tree (copyPath targetPath base c) then
      findCopyCounter tree targetPath base fuel (c + 1)
    else c

/-- The destination path chosen by `handlePaste` for a copy of a node with
display name `base` into the folder `targetPath` (empty string = root):
the first collision-free candidate, starting from `"{base} copy"`. -/
def uniqueCopyPath (tree : List FileItem) (targetPath base : String) :
    String :=
  copyPath targetPath base
    (findCopyCounter tree targetPath base ((dfsForest tree).length + 1) 1)

/-! ### App-level tree sync controller (App.tsx) -/

/-- The `App` component state owned by `useState` hooks in `App.tsx`. -/
structure AppState where
  fileTree : List FileItem
  selectedFile : Option FileItem
  isLoadingTree : Bool
  treeError : Option String

/-- Initial `App` state: empty tree, no selection, loading flag set. -/
def appInit : AppState :=
  { fileTree := [], selectedFile := none, isLoadingTree := true,
    treeError := none }

/-- Source `handleSelectFile` from `App.tsx`: `if (!item.isFolder)
setSelectedFile(item)` — a no-op on folders. -/
def handleSelectFile (s : AppState) (item : FileItem) : AppState :=
  if item.isFolder then s else { s with selectedFile := some item }

/-- The successful branch of `refreshFileTree`: the forest is replaced
wholesale and the selection is re-resolved by path through the new forest
(`prev === null ? null : findFileByPath(tree, prev.path)`); the error is
cleared at entry and the loading flag cleared in `finally`. -/
def refreshSuccess (s : AppState) (tree : List FileItem) : AppState :=
  { fileTree := tree,
    selectedFile :=
      match s.selectedFile with
      | none => none
      | some prev => findFileByPath tree prev.path,
    isLoadingTree := false,
    treeError := none }

/-- The failing branch of `refreshFileTree`: tree and selection untouched,
error recorded, loading flag cleared in `finally`. -/
def refreshFailure (s : AppState) (e : String) : AppState :=
  { s with treeError := some e, isLoadingTree := false }

/-- The events that mutate `App`'s selection-relevant state: a sidebar
click on an item (`TreeNode.handleClick` routes folders to expansion
toggling and non-folders to `handleSelectFile`; `handleSelectFile` itself
re-checks the folder flag) and the two outcomes of `refreshFileTree`. -/
inductive AppEvent where
  | select (item : FileItem)
  | refreshOk (tree : List FileItem)
  | refreshErr (e : String)

def appStep (s : AppState) : AppEvent → AppState
  | .select item => handleSelectFile s item
  | .refreshOk tree => refreshSuccess s tree
  | .refreshErr e => refreshFailure s e

/-- Run the App controller from its initial state over a list of events. -/
def appRun (events : List AppEvent) : AppState :=
  events.foldl appStep appInit

/-! ### Canvas document lifecycle controller (ExcalidrawCanvas with
force-save: forceSave / loadFile / handleChange) -/

/-- A content-change snapshot from the drawing surface: the `elements`,
`appState` fields read by the save path, and the attached `files`.
Element records and file records are opaque to the controller and are
modeled as tokens. -/
structure DrawSnapshot where
  elements : List String
  viewBackgroundColor : Option String
  zoom : Option Nat
  scrollX : Option Nat
  scrollY : Option Nat
  gridSize : Option Nat
  files : List (String × String)
deriving DecidableEq, Repr

/-- The serialized document written by `saveCanvas` and read back by
`readCanvas`: `{type: "excalidraw", version: 2, elements, appState:
{viewBackgroundColor (defaulted to "#ffffff"), zoom, scrollX, scrollY,
gridSize}, files}`. -/
structure CanvasDoc where
  type : String
  version : Nat
  elements : List String
  viewBackgroundColor : String
  zoom : Option Nat
  scrollX : Option Nat
  scrollY : Option Nat
  gridSize : Option Nat
  files : List (String × String)
deriving DecidableEq, Repr

/-- The payload built by both `forceSave` and the debounce timer body:
background color defaulted via `?? "#ffffff"`, the rest passed through. -/
def serializeSnapshot (d : DrawSnapshot) : CanvasDoc :=
  { type := "excalidraw", version := 2, elements := d.elements,
    viewBackgroundColor := d.viewBackgroundColor.getD "#ffffff",
    zoom := d.zoom, scrollX := d.scrollX, scrollY := d.scrollY,
    gridSize := d.gridSize, files := d.files }

/-- Source `DEFAULT_CANVAS_DATA`: the empty document substituted on load or parse
failure. -/
def defaultCanvasData : CanvasDoc :=
  { type := "excalidraw", version := 2, elements := [],
    viewBackgroundColor := "#ffffff", zoom := none, scrollX := none,
    scrollY := none, gridSize := none, files := [] }

/-- A capability call issued to the storage gateway by the canvas
controller. -/
inductive CapCall where
  | read (path : String)
  | save (path : String) (payload : CanvasDoc)
deriving DecidableEq, Repr

/-- The component state of `ExcalidrawCanvas`: the `useState` hooks plus
the `saveTimerRef` / `currentFileRef` / `lastDataRef` refs. A pending
debounce timer is modeled by the file path and snapshot its closure
captured. -/
structure CanvasState where
  initialData : Option CanvasDoc
  isLoading : Bool
  loadError : Option String
  isSaving : Bool
  canRender : Bool
  saveTimer : Option (String × DrawSnapshot)
  currentFile : Option String
  lastData : Option DrawSnapshot
deriving DecidableEq, Repr

/-- The `saveCanvas` calls issued by `forceSave`: one save of the last
pending snapshot to the current file when both are set, none otherwise.
`forceSave` catches its own save error and only logs it, so the
surrounding state never depends on the save outcome. -/
def forceSaveCalls (s : CanvasState) : List CapCall :=
  match s.currentFile, s.lastData with
  | some p, some d => [CapCall.save p (serializeSnapshot d)]
  | _, _ => []

/-- The synchronous reaction of the `loadFile` effect to a selection
change, up to and including issuing the read capability call. The React
effect cleanup clears any pending debounce timer before the new effect
body runs; the body clears it again for a set selection. `flushOutcome` is
the result of the awaited flush save; `forceSave` swallows it, so the
resulting state and calls are independent of it. Returns the new state and
the capability calls issued, in order. -/
def selectChange (s : CanvasState) (sel : Option String)
    (flushOutcome : Except String Unit) : CanvasState × List CapCall :=
  match sel with
  | none =>
    -- `if (!selectedFile) { setInitialData(null); setLoadError(null);
    --  setCanRender(false); setIsLoading(false); return; }`
    ({ s with saveTimer := none, initialData := none, loadError := none,
              canRender := false, isLoading := false }, [])
  | some path =>
    let s0 := { s with saveTimer := none, isLoading := true,
                       canRender := false }
    let flush : Bool :=
      match s0.currentFile with
      | some old => old ≠ path
      | none => false
    let s1 := if flush then { s0 with isSaving := false } else s0
    let calls := if flush then forceSaveCalls s0 else []
    let _ := flushOutcome
    let s2 := { s1 with currentFile := some path, loadError := none }
    (s2, calls ++ [CapCall.read path])

/-- The continuation of `loadFile` when the `readCanvas` promise for
`path` settles with `result`. Every branch, including the `finally`,
first compares `currentFileRef.current` with the path this load was
started for and abandons all state mutation on mismatch. `parse` models
`JSON.parse` on the returned text (`none` = exception thrown). -/
def loadResolve (parse : String → Option CanvasDoc) (s : CanvasState)
    (path : String) (result : Except String String) : CanvasState :=
  if s.currentFile ≠ some path then s
  else
    match result with
    | .ok content =>
      match parse content with
      | some d =>
        { s with initialData := some d, canRender := true,
                 isLoading := false }
      | none =>
        { s with initialData := some defaultCanvasData, canRender := true,
                 isLoading := false }
    | .error e =>
      { s with loadError := some e, initialData := some defaultCanvasData,
               canRender := true, isLoading := false }

/-- Source `handleChange`: ignored when nothing is selected; otherwise records the
snapshot as the latest pending data and (re)arms the single debounce timer
with the selected path and this snapshot captured in its closure. -/
def handleChange (s : CanvasState) (selected : Option String)
    (d : DrawSnapshot) : CanvasState :=
  match selected with
  | none => s
  | some p => { s with lastData := some d, saveTimer := some (p, d) }

/-- The debounce timer firing: a timer armed for `p` saves the captured
snapshot only if `p` is still the current file; a stale timer does
nothing. `saveOutcome` is the result of the awaited save; it is caught and
logged, so the state and calls do not depend on it. -/
def timerFire (s : CanvasState) (saveOutcome : Except String Unit) :
    CanvasState × List CapCall :=
  match s.saveTimer with
  | none => (s, [])
  | some (p, d) =>
    let s0 := { s with saveTimer := none }
    let _ := saveOutcome
    if s0.currentFile ≠ some p then (s0, [])
    else ({ s0 with isSaving := false }, [CapCall.save p (serializeSnapshot d)])

/-- Initial `ExcalidrawCanvas` state: all `useState` defaults, all refs
null. -/
def canvasInit : CanvasState :=
  { initialData := none, isLoading := false, loadError := none,
    isSaving := false, canRender := false, saveTimer := none,
    currentFile := none, lastData := none }

/-! ## Helper lemmas -/

mutual

/-- Helper: `findFileByPath` is `find?` on the depth-first enumeration. -/
theorem findFileByPath_eq_find? (F : List FileItem) (p : String) :
    findFileByPath F p = (dfsForest F).find? fun n => n.path == p := by
  match F with
  | [] => rfl
  | item :: rest =>
    have ih1 := findFileByPath_eq_find? rest p
    have ih2 := findInChildren_eq_find? item p
    rw [findFileByPath, dfsForest, List.cons_append, List.find?_cons]
    by_cases h : item.path = p
    · simp [h]
    · have hb : (item.path == p) = false := by simp [h]
      simp only [hb, if_neg h, List.find?_append, ih1, ih2]
      cases hc : (dfsChildren item).find? (fun n => n.path == p) <;>
        simp [Option.or]

theorem findInChildren_eq_find? (i : FileItem) (p : String) :
    findInChildren i p = (dfsChildren i).find? fun n => n.path == p := by
  match i with
  | .mk name path isFolder children =>
    cases isFolder with
    | false => simp [findInChildren, dfsChildren]
    | true =>
      cases children with
      | none => simp [findInChildren, dfsChildren]
      | some cs =>
        simpa [findInChildren, dfsChildren] using findFileByPath_eq_find? cs p

end

theorem loadResolve_currentFile (parse : String → Option CanvasDoc)
    (s : CanvasState) (p : String) (r : Except String String) :
    (loadResolve parse s p r).currentFile = s.currentFile := by
  unfold loadResolve
  split
  · rfl
  · cases r with
    | ok c =>
      dsimp only
      cases parse c <;> rfl
    | error e => rfl

theorem loadResolve_stale (parse : String → Option CanvasDoc)
    (s : CanvasState) (p : String) (r : Except String String)
    (h : s.currentFile ≠ some p) : loadResolve parse s p r = s := by
  unfold loadResolve
  rw [if_pos h]

theorem selectChange_currentFile (s : CanvasState) (p : String)
    (o : Except String Unit) :
    (selectChange s (some p) o).1.currentFile = some p := rfl

theorem selectChange_loadError (s : CanvasState) (p : String)
    (o : Except String Unit) :
    (selectChange s (some p) o).1.loadError = none := rfl

theorem foldl_handleChange (p : String) (ds : List DrawSnapshot)
    (d : DrawSnapshot) (s : CanvasState) :
    ((ds ++ [d]).foldl (fun st dd => handleChange st (some p) dd) s).saveTimer
        = some (p, d)
    ∧ ((ds ++ [d]).foldl (fun st dd => handleChange st (some p) dd)
        s).currentFile = s.currentFile := by
  induction ds generalizing s with
  | nil => simp [handleChange]
  | cons a as ih =>
    simpa [handleChange] using ih (handleChange s (some p) a)

/-! ## Claim theorems -/

/-- C7: `findFileByPath F p` returns a node iff some node of `F` at any
depth has path exactly `p`; the node returned is the first one in the
depth-first, parents-before-children, siblings-in-order traversal that
descends into a folder's children only when the field is present; and the
empty query matches nothing when no node has the empty path. -/
theorem findFileByPath_spec (F : List FileItem) (p : String) :
    findFileByPath F p = ((dfsForest F).find? fun n => n.path == p)
    ∧ ((findFileByPath F p).isSome ↔ ∃ n ∈ dfsForest F, n.path = p)
    ∧ (∀ n, findFileByPath F p = some n → n.path = p ∧ n ∈ dfsForest F)
    ∧ ((∀ n ∈ dfsForest F, n.path ≠ "") → findFileByPath F "" = none) := by
  have key := findFileByPath_eq_find? F p
  refine ⟨key, ?_, ?_, ?_⟩
  · rw [key, List.find?_isSome]
    simp
  · intro n hn
    rw [key] at hn
    exact ⟨by simpa using List.find?_some hn, List.mem_of_find?_eq_some hn⟩
  · intro h
    rw [findFileByPath_eq_find? F ""]
    cases hc : (dfsForest F).find? (fun n => n.path == "") with
    | none => rfl
    | some n =>
      exact absurd (by simpa using List.find?_some hc)
        (h n (List.mem_of_find?_eq_some hc))

theorem findFileByPath_spec_witness :
    (∀ n ∈ dfsForest [FileItem.mk "a" "a" false none], n.path ≠ "")
    ∧ findFileByPath [FileItem.mk "a" "a" false none] "" = none :=
  ⟨by decide,
    (findFileByPath_spec [FileItem.mk "a" "a" false none] "").2.2.2 (by decide)⟩

/-- C2: a successful refresh replaces the forest wholesale, clears the
loading flag and error, keeps a `none` selection `none`, and re-resolves a
set selection by path through the new forest: the selection becomes the
node found by `findFileByPath` when one with that path exists and `none`
when no node has that path. -/
theorem refreshSuccess_spec (s : AppState) (tree : List FileItem) :
    (refreshSuccess s tree).fileTree = tree
    ∧ (refreshSuccess s tree).isLoadingTree = false
    ∧ (refreshSuccess s tree).treeError = none
    ∧ (s.selectedFile = none → (refreshSuccess s tree).selectedFile = none)
    ∧ (∀ prev, s.selectedFile = some prev →
        (refreshSuccess s tree).selectedFile = findFileByPath tree prev.path
        ∧ ((∃ n ∈ dfsForest tree, n.path = prev.path) →
            ∃ n, (refreshSuccess s tree).selectedFile = some n
              ∧ n.path = prev.path)
        ∧ ((∀ n ∈ dfsForest tree, n.path ≠ prev.path) →
            (refreshSuccess s tree).selectedFile = none)) := by
  refine ⟨rfl, rfl, rfl, ?_, ?_⟩
  · intro h
    simp [refreshSuccess, h]
  · intro prev h
    have hsel : (refreshSuccess s tree).selectedFile
        = findFileByPath tree prev.path := by
      simp [refreshSuccess, h]
    refine ⟨hsel, ?_, ?_⟩
    · intro hex
      have hs : (findFileByPath tree prev.path).isSome := by
        rw [findFileByPath_eq_find?, List.find?_isSome]
        simpa using hex
      rcases Option.isSome_iff_exists.mp hs with ⟨n, hn⟩
      refine ⟨n, hsel ▸ hn, ?_⟩
      have := List.find?_some (findFileByPath_eq_find? tree prev.path ▸ hn)
      simpa using this
    · intro hnone
      rw [hsel, findFileByPath_eq_find?]
      cases hc : (dfsForest tree).find? (fun n => n.path == prev.path) with
      | none => rfl
      | some n =>
        exact absurd (by simpa using List.find?_some hc)
          (hnone n (List.mem_of_find?_eq_some hc))

def c2File : FileItem := FileItem.mk "b.excalidraw" "a/b.excalidraw" false none

def c2State : AppState :=
  { fileTree := [], selectedFile := some c2File, isLoadingTree := false,
    treeError := none }

/-- A reordered refreshed forest that still contains the selected path. -/
def c2Tree : List FileItem :=
  [FileItem.mk "c" "c" false none,
   FileItem.mk "a" "a" true (some [c2File])]

/-- A refreshed forest in which the selected path no longer exists. -/
def c2TreeGone : List FileItem :=
  [FileItem.mk "c" "c" false none]

theorem refreshSuccess_spec_witness :
    (refreshSuccess c2State c2Tree).selectedFile
        = findFileByPath c2Tree "a/b.excalidraw"
    ∧ (refreshSuccess c2State c2TreeGone).selectedFile = none :=
  ⟨((refreshSuccess_spec c2State c2Tree).2.2.2.2 c2File rfl).1,
   ((refreshSuccess_spec c2State c2TreeGone).2.2.2.2 c2File rfl).2.2
     (by decide)⟩

/-- C1: a read continuation whose path no longer equals the live path
token performs no state mutation; in particular, after selecting `A` then
`B` (`A ≠ B`), once `B`'s read has resolved, the late resolution of `A`'s
read (success or failure) leaves the state exactly as `B`'s load produced
it. -/
theorem staleLoad_spec (s : CanvasState) (A B : String)
    (o1 o2 : Except String Unit) (parse : String → Option CanvasDoc)
    (resA resB : Except String String) (hAB : A ≠ B) :
    (loadResolve parse
        (loadResolve parse
          ((selectChange ((selectChange s (some A) o1).1) (some B) o2).1)
          B resB)
        A resA
      = loadResolve parse
          ((selectChange ((selectChange s (some A) o1).1) (some B) o2).1)
          B resB)
    ∧ (∀ (t : CanvasState) (p : String) (r : Except String String),
        t.currentFile ≠ some p → loadResolve parse t p r = t) := by
  constructor
  · apply loadResolve_stale
    rw [loadResolve_currentFile, selectChange_currentFile]
    simp [Ne.symm hAB]
  · exact fun t p r h => loadResolve_stale parse t p r h

def c1Parse : String → Option CanvasDoc := fun _ => none

def c1State : CanvasState :=
  (selectChange ((selectChange canvasInit (some "a") (Except.ok ())).1)
    (some "b") (Except.ok ())).1

theorem staleLoad_spec_witness :
    loadResolve c1Parse (loadResolve c1Parse c1State "b" (Except.ok "x"))
        "a" (Except.ok "y")
      = loadResolve c1Parse c1State "b" (Except.ok "x") :=
  (staleLoad_spec canvasInit "a" "b" (Except.ok ()) (Except.ok ()) c1Parse
    (Except.ok "y") (Except.ok "x") (by decide)).1

def c4Snap : DrawSnapshot :=
  { elements := ["rect1"], viewBackgroundColor := none, zoom := none,
    scrollX := none, scrollY := none, gridSize := none, files := [] }

def c4State : CanvasState :=
  { canvasInit with currentFile := some "a", lastData := some c4Snap }

/-- C4 counterexample: with path `"a"` live and a pending unsaved
snapshot, a selection change to none issues no capability call at all —
`loadFile` early-returns on a null selection before the `forceSave`
block, so the pending edit is flushed by no save call, refuting the
claim's "(or to none)" case. -/
theorem flushOnSwitch_counterexample :
    c4State.currentFile = some "a" ∧ c4State.lastData = some c4Snap
    ∧ (selectChange c4State none (Except.ok ())).2 = [] :=
  ⟨rfl, rfl, rfl⟩

/-- C4 (amended): switching the selection from a set path `A` to a
different set path `B` while a pending snapshot exists issues exactly one
flush save for `A` carrying the last pending snapshot, before the read
for `B`; the transition does not depend on the flush outcome (flush
errors are swallowed and logged). A selection change to none issues no
flush call at all: `loadFile` returns before the `forceSave` block, so
pending unsaved edits are silently dropped there. -/
theorem flushOnSwitch_spec (s : CanvasState) (A B : String)
    (d : DrawSnapshot) (o : Except String Unit)
    (hA : s.currentFile = some A) (hd : s.lastData = some d) (hAB : A ≠ B) :
    (selectChange s (some B) o).2
        = [CapCall.save A (serializeSnapshot d), CapCall.read B]
    ∧ (∀ o', selectChange s (some B) o = selectChange s (some B) o')
    ∧ (∀ (t : CanvasState) (o' : Except String Unit),
        (selectChange t none o').2 = []) := by
  refine ⟨?_, fun o' => rfl, fun t o' => rfl⟩
  simp [selectChange, forceSaveCalls, hA, hd, hAB]

theorem flushOnSwitch_spec_witness :
    (selectChange c4State (some "b") (Except.ok ())).2
      = [CapCall.save "a" (serializeSnapshot c4Snap), CapCall.read "b"] :=
  (flushOnSwitch_spec c4State "a" "b" c4Snap (Except.ok ()) rfl rfl
    (by decide)).1

/-- C5: a burst of `n ≥ 1` change events on the live path leaves the
single debounce timer armed with the last event's snapshot, so its firing
issues exactly one save call carrying the last event's data; each event
re-arms (cancels and replaces) the single pending timer; and a timer that
fires after the live path changed issues no save at all. -/
theorem debounce_spec :
    (∀ (s : CanvasState) (p : String) (ds : List DrawSnapshot)
        (d : DrawSnapshot) (o : Except String Unit),
      s.currentFile = some p →
      (timerFire
          ((ds ++ [d]).foldl (fun st dd => handleChange st (some p) dd) s)
          o).2
        = [CapCall.save p (serializeSnapshot d)])
    ∧ (∀ (s : CanvasState) (p : String) (d : DrawSnapshot)
        (o : Except String Unit),
      s.saveTimer = some (p, d) → s.currentFile ≠ some p →
      (timerFire s o).2 = [])
    ∧ (∀ (s : CanvasState) (p : String) (d : DrawSnapshot),
      (handleChange s (some p) d).saveTimer = some (p, d)) := by
  refine ⟨?_, ?_, fun s p d => rfl⟩
  · intro s p ds d o hc
    obtain ⟨h1, h2⟩ := foldl_handleChange p ds d s
    generalize hG : (ds ++ [d]).foldl
        (fun st dd => handleChange st (some p) dd) s = t at h1 h2
    rw [hc] at h2
    simp [timerFire, h1, h2]
  · intro s p d o hst hc
    simp [timerFire, hst, hc]

def c5State : CanvasState := { canvasInit with currentFile := some "p" }

def c5Snap2 : DrawSnapshot :=
  { elements := ["e2"], viewBackgroundColor := some "#000000", zoom := none,
    scrollX := none, scrollY := none, gridSize := none, files := [] }

theorem debounce_spec_witness :
    (timerFire
        (([c4Snap] ++ [c5Snap2]).foldl
          (fun st dd => handleChange st (some "p") dd) c5State)
        (Except.ok ())).2
      = [CapCall.save "p" (serializeSnapshot c5Snap2)] :=
  debounce_spec.1 c5State "p" [c4Snap] c5Snap2 (Except.ok ()) rfl

/-- C6: a load whose token is still live at resolution always ends
render-eligible, not loading, and with a document: a rejected read sets
the advisory error and substitutes the default document; a successful read
whose text fails to parse silently substitutes the default document with
no error; a successful parse installs the parsed document with no
error. -/
theorem loadOutcome_spec (s : CanvasState) (path : String)
    (o : Except String Unit) (parse : String → Option CanvasDoc)
    (result : Except String String) :
    (loadResolve parse ((selectChange s (some path) o).1) path
        result).canRender = true
    ∧ (loadResolve parse ((selectChange s (some path) o).1) path
        result).isLoading = false
    ∧ (loadResolve parse ((selectChange s (some path) o).1) path
        result).initialData
        = some (match result with
            | .ok c => (parse c).getD defaultCanvasData
            | .error _ => defaultCanvasData)
    ∧ (loadResolve parse ((selectChange s (some path) o).1) path
        result).loadError
        = (match result with
            | .ok _ => none
            | .error e => some e) := by
  have hc : ((selectChange s (some path) o).1).currentFile = some path := rfl
  have he : ((selectChange s (some path) o).1).loadError = none := rfl
  cases result with
  | ok c =>
    cases hp : parse c with
    | none => simp [loadResolve, hc, he, hp]
    | some dd => simp [loadResolve, hc, he, hp]
  | error e => simp [loadResolve, hc, he]

/-- C3 counterexample: the target folder `"a/b"` is a strict descendant of
the source `"a"` (moving a folder into its own subtree), yet the
drop-to-folder move pipeline is not rejected: it issues
`renameItem("a", "a/b/a")`. -/
theorem moveGuard_counterexample :
    strStartsWith "a/b" ("a" ++ "/") = true
    ∧ handleDropCall "a" (FileItem.mk "b" "a/b" true (some []))
        = some ("a", "a/b/a") :=
  ⟨rfl, rfl⟩

/-- C3 (amended): the drop-to-folder move pipeline rejects the move — no
rename capability call, and hence none of the state updates that only
follow a successful call — whenever the target folder path equals the
source path or the source is a descendant of the target (which covers the
case where the destination `t ++ "/" ++ baseName s` equals `s`). The code
has no guard for the target being a descendant of the source. -/
theorem moveGuard_spec (sourcePath : String) (target : FileItem)
    (h : sourcePath = target.path
      ∨ strStartsWith sourcePath (target.path ++ "/") = true) :
    handleDropCall sourcePath target = none := by
  unfold handleDropCall
  by_cases hf : target.isFolder = true
  · simp only [hf, Bool.not_true, Bool.false_eq_true, if_false]
    by_cases h0 : sourcePath = ""
    · simp [h0]
    · rcases h with h | h
      · simp [h0, h]
      · by_cases h1 : sourcePath = target.path
        · simp [h0, h1]
        · simp [h0, h1, h]
  · have hfalse : target.isFolder = false := by simpa using hf
    simp [hfalse]

theorem moveGuard_spec_witness :
    handleDropCall "x/a" (FileItem.mk "x" "x" true (some [])) = none :=
  moveGuard_spec "x/a" (FileItem.mk "x" "x" true (some [])) (Or.inr rfl)

/-- Reachable App states when every successful refresh re-resolves the
previously selected path (if any) to a non-folder node (or to nothing).
Without the proviso on `refreshOk` a refresh may repurpose the selected
path as a folder and make the selection a folder. -/
inductive ReachGood : AppState → Prop where
  | init : ReachGood appInit
  | select (s : AppState) (item : FileItem) :
      ReachGood s → ReachGood (appStep s (AppEvent.select item))
  | refreshErr (s : AppState) (e : String) :
      ReachGood s → ReachGood (appStep s (AppEvent.refreshErr e))
  | refreshOk (s : AppState) (tree : List FileItem)
      (h : ∀ prev, s.selectedFile = some prev →
        ∀ n, findFileByPath tree prev.path = some n → n.isFolder = false) :
      ReachGood s → ReachGood (appStep s (AppEvent.refreshOk tree))

/-- C10 counterexample: select a non-folder at path `"a.excalidraw"`, then
refresh with a forest whose node at that same path is a folder — the
re-resolved selection is a folder, so a reachable selection state is a
folder. -/
theorem selection_folder_counterexample :
    ((appRun
        [AppEvent.select (FileItem.mk "a.excalidraw" "a.excalidraw" false none),
         AppEvent.refreshOk
           [FileItem.mk "a.excalidraw" "a.excalidraw" true (some [])]]
      ).selectedFile.map FileItem.isFolder) = some true := rfl

/-- C10 (amended): the select-file operation is a no-op on folder items;
and starting from the initial `none` selection, every reachable selection
state is `none` or a non-folder node, provided every successful refresh
re-resolves the previously selected path to a non-folder (a refresh that
repurposes the selected path as a folder breaks the invariant, as the
counterexample shows). -/
theorem selection_not_folder_spec :
    (∀ (s : AppState) (item : FileItem), item.isFolder = true →
        handleSelectFile s item = s)
    ∧ (∀ s : AppState, ReachGood s →
        ∀ it, s.selectedFile = some it → it.isFolder = false) := by
  constructor
  · intro s item h
    simp [handleSelectFile, h]
  · intro s hs
    induction hs with
    | init =>
      intro it h
      cases h
    | select s item hprev ih =>
      intro it h
      by_cases hf : item.isFolder = true
      · rw [show appStep s (AppEvent.select item) = handleSelectFile s item
            from rfl, handleSelectFile, if_pos hf] at h
        exact ih it h
      · rw [show appStep s (AppEvent.select item) = handleSelectFile s item
            from rfl, handleSelectFile, if_neg hf] at h
        simp only [Option.some.injEq] at h
        rw [← h]
        exact Bool.not_eq_true _ ▸ hf
    | refreshErr s e hprev ih =>
      intro it h
      exact ih it h
    | refreshOk s tree hguard hprev ih =>
      intro it h
      simp only [appStep, refreshSuccess] at h
      cases hsel : s.selectedFile with
      | none => rw [hsel] at h; cases h
      | some prev => rw [hsel] at h; exact hguard prev hsel it h

theorem selection_not_folder_spec_witness :
    FileItem.isFolder (FileItem.mk "a.excalidraw" "a.excalidraw" false none)
      = false :=
  selection_not_folder_spec.2
    (appStep appInit
      (AppEvent.select (FileItem.mk "a.excalidraw" "a.excalidraw" false none)))
    (ReachGood.select appInit _ ReachGood.init)
    (FileItem.mk "a.excalidraw" "a.excalidraw" false none) rfl

/-- C8 counterexample: on the forest with a single folder `"ab"` whose
`children` field is absent and the query `"a"`, the code's filter emits
the folder with an empty-present `children` field while the spec's
wholesale inclusion keeps the node unchanged (absent field), so the two
differ. -/
theorem filter_eq_spec_counterexample :
    filterFileTree [FileItem.mk "ab" "ab" true none] "a"
      ≠ filterSpec [FileItem.mk "ab" "ab" true none] "a" := by
  intro h
  have h1 : filterFileTree [FileItem.mk "ab" "ab" true none] "a"
      = [FileItem.mk "ab" "ab" true (some [])] := rfl
  have h2 : filterSpec [FileItem.mk "ab" "ab" true none] "a"
      = [FileItem.mk "ab" "ab" true none] := rfl
  rw [h1, h2] at h
  injection h with hhead _
  injection hhead with _ _ _ hchildren
  exact Option.noConfusion hchildren

mutual

theorem filterList_eq_specList (F : List FileItem) (q : String)
    (h : (dfsForest F).all childrenPresentAt = true) :
    filterList F q = filterSpecList F q := by
  match F with
  | [] => rfl
  | item :: rest =>
    rw [dfsForest] at h
    simp only [List.all_append, List.all_cons, Bool.and_eq_true] at h
    obtain ⟨⟨hitem, hchildren⟩, hrest⟩ := h
    rw [filterList, filterSpecList,
        filterItem_eq_specItem item q hitem hchildren,
        filterList_eq_specList rest q hrest]

theorem filterItem_eq_specItem (i : FileItem) (q : String)
    (hi : childrenPresentAt i = true)
    (hc : (dfsChildren i).all childrenPresentAt = true) :
    filterItem i q = filterSpecItem i q := by
  match i with
  | .mk name path isFolder children =>
    cases isFolder with
    | false => rfl
    | true =>
      cases children with
      | none =>
        exact absurd hi (by
          simp [childrenPresentAt, FileItem.isFolder, FileItem.children])
      | some cs =>
        have hcs : (dfsForest cs).all childrenPresentAt = true := by
          simpa [dfsChildren] using hc
        simp only [filterItem, filterSpecItem,
          filterList_eq_specList cs q hcs, Option.getD_some]

end

/-- C8 (amended): with the empty query the filter is the identity on the
input forest; and on every forest in which each folder's `children` field
is present, the code's filter coincides exactly with the spec's reference
filter. (The only divergence, forced by the counterexample, is that the
code normalizes a matching folder's absent `children` field to an
empty-present one.) -/
theorem filter_eq_spec (F : List FileItem) (q : String) :
    (q = "" → filterFileTree F q = F)
    ∧ (allChildrenPresent F = true → filterFileTree F q = filterSpec F q) := by
  constructor
  · intro h
    simp [filterFileTree, h]
  · intro h
    unfold filterFileTree filterSpec
    by_cases hq : q = ""
    · simp [hq]
    · simp only [hq, if_false]
      exact filterList_eq_specList F q h

def c8Tree : List FileItem :=
  [FileItem.mk "folder" "folder" true
    (some [FileItem.mk "x.excalidraw" "folder/x.excalidraw" false none])]

theorem filter_eq_spec_witness :
    filterFileTree c8Tree "fold" = filterSpec c8Tree "fold"
    ∧ filterFileTree c8Tree "" = c8Tree :=
  ⟨(filter_eq_spec c8Tree "fold").2 rfl, (filter_eq_spec c8Tree "").1 rfl⟩

/-! ### Decimal representation facts for the copy-name counter -/

theorem toDigitsCore_digits_eq (fuel : Nat) :
    ∀ (n : Nat) (acc : List Char), 0 < n → n < 10 ^ fuel →
      Nat.toDigitsCore 10 fuel n acc
        = ((Nat.digits 10 n).map Nat.digitChar).reverse ++ acc := by
  induction fuel with
  | zero =>
    intro n acc h0 hf
    simp only [pow_zero, Nat.lt_one_iff] at hf
    omega
  | succ fuel ih =>
    intro n acc h0 hf
    rw [Nat.toDigitsCore]
    rw [Nat.digits_def' (by norm_num : (1 : ℕ) < 10) h0]
    by_cases hq : n / 10 = 0
    · simp [hq, Nat.digits_zero]
    · rw [if_neg hq]
      have hq0 : 0 < n / 10 := Nat.pos_of_ne_zero hq
      have hqlt : n / 10 < 10 ^ fuel := by
        rw [Nat.div_lt_iff_lt_mul (by norm_num : (0:ℕ) < 10)]
        calc n < 10 ^ (fuel + 1) := hf
        _ = 10 ^ fuel * 10 := by ring
      rw [ih (n / 10) _ hq0 hqlt]
      simp [List.append_assoc]

theorem natRepr_eq_digits (n : Nat) (h0 : 0 < n) :
    Nat.repr n = (((Nat.digits 10 n).map Nat.digitChar).reverse).asString := by
  show (Nat.toDigits 10 n).asString = _
  unfold Nat.toDigits
  rw [toDigitsCore_digits_eq (n + 1) n [] h0
    (lt_of_lt_of_le (Nat.lt_pow_self (by norm_num) n)
      (Nat.pow_le_pow_right (by norm_num) (Nat.le_succ n)))]
  simp

theorem digitChar_inj_fin :
    ∀ a b : Fin 10, Nat.digitChar a.val = Nat.digitChar b.val → a = b := by
  decide

theorem digitChar_inj (a b : Nat) (ha : a < 10) (hb : b < 10)
    (h : Nat.digitChar a = Nat.digitChar b) : a = b :=
  congrArg Fin.val (digitChar_inj_fin ⟨a, ha⟩ ⟨b, hb⟩ h)

theorem map_digitChar_inj :
    ∀ (L1 L2 : List Nat), (∀ x ∈ L1, x < 10) → (∀ x ∈ L2, x < 10) →
      L1.map Nat.digitChar = L2.map Nat.digitChar → L1 = L2
  | [], [], _, _, _ => rfl
  | [], _ :: _, _, _, h => by simp at h
  | _ :: _, [], _, _, h => by simp at h
  | a :: L1, b :: L2, h1, h2, h => by
    simp only [List.map_cons, List.cons.injEq] at h
    have hab := digitChar_inj a b (h1 a (List.mem_cons_self a L1))
      (h2 b (List.mem_cons_self b L2)) h.1
    rw [hab, map_digitChar_inj L1 L2
      (fun x hx => h1 x (List.mem_cons_of_mem a hx))
      (fun x hx => h2 x (List.mem_cons_of_mem b hx)) h.2]

theorem natRepr_inj_pos (m n : Nat) (hm : 0 < m) (hn : 0 < n)
    (h : Nat.repr m = Nat.repr n) : m = n := by
  rw [natRepr_eq_digits m hm, natRepr_eq_digits n hn] at h
  have hl := List.asString_inj.mp h
  have hrev := congrArg List.reverse hl
  simp only [List.reverse_reverse] at hrev
  exact Nat.digits_inj_iff.mp (map_digitChar_inj _ _
    (fun x hx => Nat.digits_lt_base (by norm_num) hx)
    (fun x hx => Nat.digits_lt_base (by norm_num) hx) hrev)

theorem natRepr_length_pos (k : Nat) (hk : 0 < k) :
    0 < (Nat.repr k).length := by
  rw [natRepr_eq_digits k hk, List.length_asString, List.length_reverse,
    List.length_map]
  exact List.length_pos.mpr (Nat.digits_ne_nil_iff_ne_zero.mpr (by omega))

theorem copyName_inj (base : String) (j k : Nat) (hj : 1 ≤ j) (hk : 1 ≤ k)
    (h : copyName base j = copyName base k) : j = k := by
  unfold copyName at h
  by_cases hj1 : j = 1 <;> by_cases hk1 : k = 1
  · omega
  · exfalso
    rw [if_pos hj1, if_neg hk1] at h
    have hlen := congrArg String.length h
    rw [String.length_append, String.length_append, String.length_append]
      at hlen
    have := natRepr_length_pos k (by omega)
    have h5 : (" copy" : String).length = 5 := rfl
    have h6 : (" copy " : String).length = 6 := rfl
    omega
  · exfalso
    rw [if_neg hj1, if_pos hk1] at h
    have hlen := congrArg String.length h
    rw [String.length_append, String.length_append, String.length_append]
      at hlen
    have := natRepr_length_pos j (by omega)
    have h5 : (" copy" : String).length = 5 := rfl
    have h6 : (" copy " : String).length = 6 := rfl
    omega
  · rw [if_neg hj1, if_neg hk1] at h
    have hd := congrArg String.data h
    simp only [String.data_append, List.append_assoc] at hd
    have h1 := List.append_cancel_left hd
    have h2 := List.append_cancel_left h1
    exact natRepr_inj_pos j k (by omega) (by omega) (String.ext h2)

theorem copyPath_inj (t base : String) (j k : Nat) (hj : 1 ≤ j)
    (hk : 1 ≤ k) (h : copyPath t base j = copyPath t base k) : j = k := by
  unfold copyPath at h
  apply copyName_inj base j k hj hk
  by_cases ht : t = ""
  · rw [if_pos ht, if_pos ht] at h
    have hd := congrArg String.data h
    simp only [String.data_append] at hd
    exact String.ext (List.append_inj' hd rfl).1
  · rw [if_neg ht, if_neg ht] at h
    have hd := congrArg String.data h
    simp only [String.data_append, List.append_assoc] at hd
    have h1 := List.append_cancel_left hd
    have h2 := List.append_cancel_left h1
    exact String.ext (List.append_inj' h2 rfl).1

/-- Pigeonhole: among any `n + 1` consecutive candidate paths (with `n`
the number of nodes in the forest) at least one is not present. -/
theorem exists_free_candidate (tree : List FileItem) (t base : String)
    (c : Nat) (hc : 1 ≤ c) :
    ∃ k, k ≤ (dfsForest tree).length
      ∧ pathExistsIn tree (copyPath t base (c + k)) = false := by
  by_contra hall
  push_neg at hall
  have hmem : ∀ k : Fin ((dfsForest tree).length + 1),
      copyPath t base (c + k.val)
        ∈ ((dfsForest tree).map FileItem.path).toFinset := by
    intro k
    have h1 := hall k.val (Nat.lt_succ_iff.mp k.isLt)
    have h2 : pathExistsIn tree (copyPath t base (c + k.val)) = true := by
      cases hb : pathExistsIn tree (copyPath t base (c + k.val)) with
      | false => exact absurd hb h1
      | true => rfl
    rw [pathExistsIn] at h2
    rcases Option.isSome_iff_exists.mp h2 with ⟨node, hn⟩
    rw [findFileByPath_eq_find?] at hn
    have hp : node.path = copyPath t base (c + k.val) := by
      simpa using List.find?_some hn
    rw [List.mem_toFinset, ← hp]
    exact List.mem_map_of_mem FileItem.path (List.mem_of_find?_eq_some hn)
  have hinj : Set.InjOn
      (fun k : Fin ((dfsForest tree).length + 1) => copyPath t base (c + k.val))
      ↑(Finset.univ : Finset (Fin ((dfsForest tree).length + 1))) := by
    intro a _ b _ hab
    have := copyPath_inj t base (c + a.val) (c + b.val) (by omega) (by omega)
      hab
    exact Fin.ext (by omega)
  have hcard := Finset.card_le_card_of_injOn _ (fun a _ => hmem a) hinj
  rw [Finset.card_fin] at hcard
  have hle := List.toFinset_card_le ((dfsForest tree).map FileItem.path)
  rw [List.length_map] at hle
  omega

theorem findCopyCounter_spec (tree : List FileItem) (t base : String) :
    ∀ (fuel c : Nat),
      (∃ k, k < fuel ∧ pathExistsIn tree (copyPath t base (c + k)) = false) →
      pathExistsIn tree
          (copyPath t base (findCopyCounter tree t base fuel c)) = false
      ∧ c ≤ findCopyCounter tree t base fuel c
      ∧ ∀ j, c ≤ j → j < findCopyCounter tree t base fuel c →
          pathExistsIn tree (copyPath t base j) = true := by
  intro fuel
  induction fuel with
  | zero =>
    rintro c ⟨k, hk, -⟩
    omega
  | succ fuel ih =>
    intro c hex
    rw [findCopyCounter]
    by_cases hp : pathExistsIn tree (copyPath t base c) = true
    · rw [if_pos hp]
      have hex' : ∃ k, k < fuel
          ∧ pathExistsIn tree (copyPath t base (c + 1 + k)) = false := by
        rcases hex with ⟨k, hk, hfree⟩
        cases k with
        | zero =>
          rw [Nat.add_zero, hp] at hfree
          exact absurd hfree (by simp)
        | succ k' =>
          refine ⟨k', by omega, ?_⟩
          rw [show c + 1 + k' = c + (k' + 1) from by omega]
          exact hfree
      obtain ⟨h1, h2, h3⟩ := ih (c + 1) hex'
      refine ⟨h1, by omega, ?_⟩
      intro j hj hlt
      rcases Nat.eq_or_lt_of_le hj with rfl | hj'
      · exact hp
      · exact h3 j (by omega) hlt
    · rw [if_neg hp]
      refine ⟨by simpa using hp, Nat.le_refl c, ?_⟩
      intro j hj hlt
      omega

/-- C9: the copy destination generator returns the first candidate among
`"{base} copy"`, `"{base} copy 2"`, `"{base} copy 3"`, … (with the canvas
suffix appended, under the target folder) whose full path is not present
anywhere in the forest — in particular it never returns an existing path —
and with base `"Sketch"` and `"Sketch copy"` already existing at the
destination it returns the `"Sketch copy 2"` path. -/
theorem uniqueCopyPath_spec (tree : List FileItem) (t base : String) :
    pathExistsIn tree (uniqueCopyPath tree t base) = false
    ∧ (∃ r, 1 ≤ r ∧ uniqueCopyPath tree t base = copyPath t base r
        ∧ ∀ j, 1 ≤ j → j < r →
            pathExistsIn tree (copyPath t base j) = true)
    ∧ uniqueCopyPath
        [FileItem.mk "Sketch copy.excalidraw" "Sketch copy.excalidraw"
          false none] "" "Sketch"
      = "Sketch copy 2.excalidraw" := by
  have hex : ∃ k, k < (dfsForest tree).length + 1
      ∧ pathExistsIn tree (copyPath t base (1 + k)) = false := by
    rcases exists_free_candidate tree t base 1 (Nat.le_refl 1) with
      ⟨k, hk, hfree⟩
    exact ⟨k, by omega, hfree⟩
  obtain ⟨h1, h2, h3⟩ :=
    findCopyCounter_spec tree t base ((dfsForest tree).length + 1) 1 hex
  exact ⟨h1,
    ⟨findCopyCounter tree t base ((dfsForest tree).length + 1) 1, h2, rfl,
      h3⟩, rfl⟩

end Excalidrauri
